import Mathlib

/-!
Verification of the Iowa Gambling Task / free-recall repository core.

The definitions below are a shallow embedding of the Python sources:
`igt_utils.py` (deck scheduling, gambling scoring), `iowa_gambling.py`
(session stepping), and `free_recall_utils.py` (word-list building and
recall scoring).  Machine integers are modelled as `Nat`/`Int`, Python
floats holding exact decimal data as `ℚ`, and fallible calls as
`Except`.
-/

namespace IGT

/-- The four deck symbols of the Iowa Gambling Task. -/
inductive Deck where
  | A | B | C | D
deriving DecidableEq, Repr

/-- A total map from decks to naturals, used for the per-deck cursor
dictionary `deck_indices` and the per-deck draw counter `deck_counts`
of `DeckManager`. -/
structure DeckMap where
  a : Nat
  b : Nat
  c : Nat
  d : Nat
deriving DecidableEq, Repr

def DeckMap.get (m : DeckMap) : Deck → Nat
  | .A => m.a
  | .B => m.b
  | .C => m.c
  | .D => m.d

def DeckMap.set (m : DeckMap) : Deck → Nat → DeckMap
  | .A, v => { m with a := v }
  | .B, v => { m with b := v }
  | .C, v => { m with c := v }
  | .D, v => { m with d := v }

/-- Embedding of `DeckManager.rewards` from `igt_utils.py`. -/
def rewards : Deck → Nat
  | .A => 100
  | .B => 100
  | .C => 50
  | .D => 50

/-- Embedding of `DeckManager.penalty_schedules` from `igt_utils.py`:
the fixed 40-card penalty table of each deck, transcribed verbatim. -/
def penalty_schedules : Deck → List Nat
  | .A =>
    [0, 0, 150, 0, 300, 0, 200, 0, 250, 350,
     0, 350, 0, 250, 0, 200, 0, 300, 150, 0,
     150, 0, 300, 0, 0, 200, 250, 0, 0, 350,
     350, 0, 200, 250, 0, 0, 150, 0, 300, 0]
  | .B =>
    [0, 0, 0, 0, 0, 0, 0, 0, 1250, 0,
     0, 0, 0, 0, 0, 0, 0, 0, 0, 1250,
     0, 0, 0, 0, 1250, 0, 0, 0, 0, 0,
     0, 0, 0, 0, 0, 0, 1250, 0, 0, 0]
  | .C =>
    [0, 0, 50, 0, 50, 0, 50, 0, 50, 50,
     0, 25, 0, 75, 0, 50, 0, 25, 75, 0,
     50, 0, 25, 0, 0, 75, 50, 0, 0, 50,
     25, 0, 75, 50, 0, 0, 25, 0, 75, 0]
  | .D =>
    [0, 0, 0, 0, 0, 0, 0, 0, 250, 0,
     0, 0, 0, 0, 0, 0, 0, 0, 0, 250,
     0, 0, 0, 0, 250, 0, 0, 0, 0, 0,
     0, 0, 0, 0, 0, 0, 250, 0, 0, 0]

/-- The mutable state of a `DeckManager`: per-deck cursors (`deck_indices`,
each cycling in 0..39) and per-deck draw counts (`deck_counts`). -/
structure DeckState where
  indices : DeckMap
  counts : DeckMap
deriving DecidableEq, Repr

/-- The state built by `DeckManager.__init__`: all cursors and counts 0. -/
def initDeckState : DeckState :=
  { indices := ⟨0, 0, 0, 0⟩, counts := ⟨0, 0, 0, 0⟩ }

/-- The string symbol of a deck, as passed to `draw_card`. -/
def deckSym : Deck → String
  | .A => "A"
  | .B => "B"
  | .C => "C"
  | .D => "D"

/-- Recognition of a deck symbol: the membership test
`deck not in self.rewards` in `draw_card`. -/
def parseDeck (s : String) : Option Deck :=
  if s = "A" then some .A
  else if s = "B" then some .B
  else if s = "C" then some .C
  else if s = "D" then some .D
  else none

/-- The outcome tuple `(reward, penalty, net_outcome)` of a draw. -/
abbrev DrawOutcome := Nat × Nat × Int

/-- The successful branch of `DeckManager.draw_card` on a valid deck:
increment the deck count, read the penalty at the current cursor,
advance the cursor mod 40, and return `(reward, penalty, net)`. -/
def drawCardOk (st : DeckState) (d : Deck) : DrawOutcome × DeckState :=
  let counts := st.counts.set d (st.counts.get d + 1)
  let reward := rewards d
  let currentIndex := st.indices.get d
  let penalty := (penalty_schedules d).getD currentIndex 0
  let indices := st.indices.set d ((currentIndex + 1) % 40)
  ((reward, penalty, (reward : Int) - (penalty : Int)), ⟨indices, counts⟩)

/-- Embedding of `DeckManager.draw_card`: raises `ValueError` (modelled as
`Except.error`) on an unrecognized symbol, leaving the state untouched;
otherwise behaves as `drawCardOk`. -/
def draw_card (st : DeckState) (deck : String) :
    Except String DrawOutcome × DeckState :=
  match parseDeck deck with
  | none => (.error ("Invalid deck: " ++ deck), st)
  | some d =>
    let r := drawCardOk st d
    (.ok r.1, r.2)

/-- Embedding of `DeckManager.reset`: clears `deck_counts` only. -/
def reset (st : DeckState) : DeckState :=
  { st with counts := ⟨0, 0, 0, 0⟩ }

/-- State after `n` successive draws on deck `d` starting from the
freshly constructed manager. -/
def drawN (d : Deck) : Nat → DeckState
  | 0 => initDeckState
  | n + 1 => (drawCardOk (drawN d n) d).2

/-- Penalties returned by the first `n` successive draws on deck `d`
from a freshly constructed manager, in draw order. -/
def drawPenalties (d : Deck) : Nat → List Nat
  | 0 => []
  | n + 1 => drawPenalties d n ++ [(drawCardOk (drawN d n) d).1.2.1]

/-- Embedding of the `TrialResult` dataclass of `igt_utils.py`
(the wall-clock `timestamp` field is omitted). -/
structure TrialResult where
  trial_number : Nat
  deck_choice : Deck
  reward : Nat
  penalty : Nat
  net_outcome : Int
  balance_after : Int
deriving DecidableEq, Repr

/-- Embedding of the `GameSession` dataclass of `igt_utils.py`. -/
structure GameSession where
  session_id : String
  participant_id : String
  start_time : String
  trials : List TrialResult
  initial_balance : Int
  current_balance : Int
  total_trials : Nat
deriving DecidableEq, Repr

/-- A fresh `GameSession` as built by `start_game` in `iowa_gambling.py`:
only the defaulted fields matter here. -/
def initSession : GameSession :=
  { session_id := ""
    participant_id := ""
    start_time := ""
    trials := []
    initial_balance := 2000
    current_balance := 2000
    total_trials := 10 }

/-- Embedding of `select_deck` in `iowa_gambling.py`: draw a card, add the
net outcome to the balance, and append a `TrialResult` recording the new
balance.  The UI always passes a valid deck, so the draw is `drawCardOk`. -/
def select_deck (p : GameSession × DeckState) (d : Deck) :
    GameSession × DeckState :=
  let s := p.1
  let r := drawCardOk p.2 d
  let newBalance := s.current_balance + r.1.2.2
  let trial : TrialResult :=
    { trial_number := s.trials.length + 1
      deck_choice := d
      reward := r.1.1
      penalty := r.1.2.1
      net_outcome := r.1.2.2
      balance_after := newBalance }
  ({ s with current_balance := newBalance, trials := s.trials ++ [trial] },
   r.2)

/-- A whole gambling session: starting from `start_game` state, process
the given deck choices in order through `select_deck`. -/
def runSession (choices : List Deck) : GameSession × DeckState :=
  choices.foldl select_deck (initSession, initDeckState)

/-- The running-sum check on a trial list: each recorded `balance_after`
is the previous balance plus that trial's `net_outcome`, starting from
`b`. -/
def balanceChain (b : Int) : List TrialResult → Bool
  | [] => true
  | t :: ts => (t.balance_after == b + t.net_outcome) && balanceChain t.balance_after ts

/-- Sum of the recorded `net_outcome` values of a trial list. -/
def sumNets (ts : List TrialResult) : Int :=
  (ts.map (·.net_outcome)).sum

/-- The balance after the last trial of the list (`b` when empty). -/
def endBalance (b : Int) : List TrialResult → Int
  | [] => b
  | t :: ts => endBalance t.balance_after ts

/-- Result record of `calculate_igt_score` in `igt_utils.py`.  The
Python float ratio is modelled as an exact rational. -/
structure IGTScore where
  net_score : Int
  deck_counts : DeckMap
  advantageous_ratio : ℚ
  total_trials : Nat
  final_balance : Int
  profit : Int
deriving DecidableEq, Repr

/-- Embedding of `calculate_igt_score` in `igt_utils.py`. -/
def calculate_igt_score (session : GameSession) : IGTScore :=
  let deck_counts :=
    session.trials.foldl
      (fun m t => m.set t.deck_choice (m.get t.deck_choice + 1))
      ⟨0, 0, 0, 0⟩
  let advantageous : Nat := deck_counts.get .C + deck_counts.get .D
  let disadvantageous : Nat := deck_counts.get .A + deck_counts.get .B
  let net_score : Int := (advantageous : Int) - (disadvantageous : Int)
  let total := session.trials.length
  let advantageous_ratio : ℚ :=
    if total > 0 then (advantageous : ℚ) / (total : ℚ) else 0
  { net_score := net_score
    deck_counts := deck_counts
    advantageous_ratio := advantageous_ratio
    total_trials := total
    final_balance := session.current_balance
    profit := session.current_balance - session.initial_balance }

end IGT

namespace FreeRecall

/-- The stimulus category labels used as keys of `WORD_DATABASE` and as
the `category` field of `WordStimulus` in `free_recall_utils.py`. -/
inductive Category where
  | positive | negative | neutral
deriving DecidableEq, Repr

/-- One record of `WORD_DATABASE`: a word with its normed ratings.
Python floats carry exact decimal data, modelled as rationals. -/
structure StimRecord where
  word : String
  valence : ℚ
  arousal : ℚ
  concreteness : ℚ
deriving DecidableEq, Repr

/-- Embedding of the `WordStimulus` dataclass. -/
structure WordStimulus where
  word : String
  valence : ℚ
  arousal : ℚ
  concreteness : ℚ
  category : Category
  presentation_order : Nat
deriving DecidableEq, Repr

/-- Embedding of the `RecallResponse` dataclass. -/
structure RecallResponse where
  recalled_word : String
  recall_order : Nat
  response_time : ℚ
  is_correct : Bool
  is_intrusion : Bool
  original_position : Option Nat
deriving DecidableEq, Repr

/-- The fields of the `FreeRecallSession` dataclass consumed by the
scoring and list-building core (presentation timing fields are wall-clock
concerns of the UI layer and are omitted). -/
structure FreeRecallSession where
  session_id : String
  participant_id : String
  condition : String
  processing_type : String
  num_words : Nat
  presented_words : List WordStimulus
  recalled_words : List RecallResponse
  distractor_correct : Nat
  distractor_total : Nat
deriving DecidableEq, Repr

/-- A total map over the three category keys, standing for the Python
dicts keyed by the category strings. -/
structure CatMap (α : Type) where
  positive : α
  negative : α
  neutral : α
deriving DecidableEq, Repr

def CatMap.get {α : Type} (m : CatMap α) : Category → α
  | .positive => m.positive
  | .negative => m.negative
  | .neutral => m.neutral

def CatMap.set {α : Type} (m : CatMap α) : Category → α → CatMap α
  | .positive, v => { m with positive := v }
  | .negative, v => { m with negative := v }
  | .neutral, v => { m with neutral := v }

/-- The `positive` entry of `WORD_DATABASE`, transcribed verbatim. -/
def positiveWords : List StimRecord :=
  [⟨"기쁨", 8.24, 5.82, 2.87⟩, ⟨"사랑", 8.17, 4.54, 2.97⟩,
   ⟨"우정", 8.03, 3.41, 2.85⟩, ⟨"행운", 7.74, 3.83, 2.61⟩,
   ⟨"희망", 7.28, 5.33, 2.45⟩, ⟨"성공", 7.51, 5.42, 2.94⟩,
   ⟨"평화", 7.86, 2.52, 2.89⟩, ⟨"감사", 7.96, 3.36, 3.13⟩,
   ⟨"자유", 7.82, 3.85, 2.76⟩, ⟨"축하", 7.73, 4.58, 3.76⟩,
   ⟨"승리", 7.55, 6.83, 3.73⟩, ⟨"건강", 7.08, 3.13, 3.66⟩,
   ⟨"휴식", 7.80, 2.01, 3.38⟩, ⟨"친구", 7.88, 3.24, 6.08⟩,
   ⟨"선물", 7.23, 5.30, 7.04⟩, ⟨"여행", 7.66, 6.10, 5.03⟩,
   ⟨"보석", 6.73, 4.42, 7.91⟩, ⟨"노래", 7.32, 4.21, 6.08⟩,
   ⟨"낭만", 7.40, 4.16, 2.34⟩, ⟨"매력", 7.50, 5.28, 2.66⟩]

/-- The `negative` entry of `WORD_DATABASE`, transcribed verbatim. -/
def negativeWords : List StimRecord :=
  [⟨"고통", 2.42, 6.83, 3.42⟩, ⟨"슬픔", 2.81, 5.46, 4.18⟩,
   ⟨"분노", 2.84, 6.61, 3.25⟩, ⟨"공포", 2.84, 7.19, 2.98⟩,
   ⟨"불안", 2.87, 6.48, 2.73⟩, ⟨"절망", 2.11, 6.21, 2.73⟩,
   ⟨"증오", 1.72, 7.12, 2.92⟩, ⟨"후회", 2.93, 5.23, 2.87⟩,
   ⟨"실패", 2.76, 6.67, 2.67⟩, ⟨"이별", 2.58, 6.23, 3.73⟩,
   ⟨"가난", 2.91, 5.87, 3.35⟩, ⟨"전쟁", 2.24, 7.43, 5.90⟩,
   ⟨"폭력", 2.24, 7.24, 4.78⟩, ⟨"죽음", 2.36, 5.13, 4.72⟩,
   ⟨"상처", 2.85, 6.02, 6.15⟩, ⟨"위험", 2.97, 6.76, 3.33⟩,
   ⟨"걱정", 3.36, 5.63, 2.86⟩, ⟨"외로움", 3.41, 4.46, 2.62⟩,
   ⟨"긴장", 4.10, 6.96, 3.07⟩, ⟨"피해", 2.66, 6.21, 3.77⟩]

/-- The `neutral` entry of `WORD_DATABASE`, transcribed verbatim. -/
def neutralWords : List StimRecord :=
  [⟨"책상", 5.55, 3.80, 8.61⟩, ⟨"의자", 5.46, 3.55, 8.30⟩,
   ⟨"창문", 5.45, 4.09, 8.50⟩, ⟨"시계", 5.62, 3.87, 8.53⟩,
   ⟨"거울", 5.45, 4.09, 8.50⟩, ⟨"우산", 5.10, 3.70, 8.66⟩,
   ⟨"신문", 5.69, 3.95, 8.55⟩, ⟨"바위", 5.22, 3.78, 8.60⟩,
   ⟨"단추", 5.19, 3.93, 8.53⟩, ⟨"열쇠", 5.74, 4.00, 8.59⟩,
   ⟨"그릇", 5.41, 3.85, 8.42⟩, ⟨"모자", 5.51, 4.18, 8.55⟩,
   ⟨"가구", 5.17, 3.85, 8.18⟩, ⟨"건물", 5.30, 3.88, 8.27⟩,
   ⟨"도구", 5.56, 4.38, 7.28⟩, ⟨"글자", 5.29, 3.58, 7.43⟩,
   ⟨"탁자", 4.96, 3.91, 8.51⟩, ⟨"볼펜", 5.15, 4.01, 8.69⟩,
   ⟨"냉장고", 5.43, 4.89, 8.71⟩, ⟨"전화선", 5.68, 4.04, 8.55⟩]

/-- Lookup of a `WORD_DATABASE` entry by category key. -/
def word_db : Category → List StimRecord
  | .positive => positiveWords
  | .negative => negativeWords
  | .neutral => neutralWords

/-- Construction of a `WordStimulus` from a database record, as done in
each loop of `create_word_list` (`presentation_order` defaults to 0). -/
def mkStimulus (c : Category) (r : StimRecord) : WordStimulus :=
  { word := r.word
    valence := r.valence
    arousal := r.arousal
    concreteness := r.concreteness
    category := c
    presentation_order := 0 }

/-- The order-assignment loop at the end of `create_word_list`:
`for i, w in enumerate(words): w.presentation_order = i + 1`,
generalized over the starting index. -/
def assignOrdersFrom : Nat → List WordStimulus → List WordStimulus
  | _, [] => []
  | i, w :: ws => { w with presentation_order := i } :: assignOrdersFrom (i + 1) ws

/-- Embedding of `WordListManager.create_word_list`.  The calls to
`random.sample` and `random.shuffle` are passed in as oracles `sample`
and `shuffle`; the unused `match_arousal` parameter is kept.  Branching
on the `condition` string mirrors the source (any string other than
`"emotional"` and `"neutral"` takes the mixed branch). -/
def create_word_list
    (sample : List StimRecord → Nat → List StimRecord)
    (shuffle : List WordStimulus → List WordStimulus)
    (condition : String) (num_words : Nat) (match_arousal : Bool) :
    List WordStimulus :=
  let words :=
    if condition = "emotional" then
      let n_each := num_words / 2
      let pos_words := sample positiveWords (min n_each positiveWords.length)
      let neg_words :=
        sample negativeWords (min (num_words - n_each) negativeWords.length)
      pos_words.map (mkStimulus .positive) ++ neg_words.map (mkStimulus .negative)
    else if condition = "neutral" then
      (sample neutralWords (min num_words neutralWords.length)).map
        (mkStimulus .neutral)
    else
      let n_each := num_words / 3
      let remainder := num_words % 3
      let pos_words := sample positiveWords (min n_each positiveWords.length)
      let neg_words := sample negativeWords (min n_each negativeWords.length)
      let neu_words :=
        sample neutralWords (min (n_each + remainder) neutralWords.length)
      pos_words.map (mkStimulus .positive) ++
        neg_words.map (mkStimulus .negative) ++
        neu_words.map (mkStimulus .neutral)
  assignOrdersFrom 1 (shuffle words)

/-- The three serial-position classes tallied by
`calculate_recall_scores`. -/
inductive SerialClass where
  | primacy | middle | recency
deriving DecidableEq, Repr

/-- Counters of the `serial_positions` dict. -/
structure SerialPositions where
  primacy : Nat
  middle : Nat
  recency : Nat
deriving DecidableEq, Repr

/-- The serial-position classification applied to one correct response
inside the loop of `calculate_recall_scores`: primacy when the original
position is at most `min 3 (n_words / 3)`, recency when it is strictly
beyond `n_words` minus that range, middle otherwise. -/
def classifySerial (n_words : Nat) (pos : Nat) : SerialClass :=
  let primacy_range := min 3 (n_words / 3)
  let recency_range := min 3 (n_words / 3)
  if pos ≤ primacy_range then .primacy
  else if n_words - recency_range < pos then .recency
  else .middle

/-- One step of the serial-position tally loop.  The Python guard
`if r.original_position:` skips both `None` and `0` (falsy values). -/
def tallySerial (n_words : Nat) (sp : SerialPositions) (r : RecallResponse) :
    SerialPositions :=
  match r.original_position with
  | none => sp
  | some p =>
    if p ≠ 0 then
      match classifySerial n_words p with
      | .primacy => { sp with primacy := sp.primacy + 1 }
      | .recency => { sp with recency := sp.recency + 1 }
      | .middle => { sp with middle := sp.middle + 1 }
    else sp

/-- Result record of `calculate_recall_scores`. -/
structure RecallScores where
  total_presented : Nat
  total_recalled : Nat
  correct_recalls : Nat
  recall_rate : ℚ
  intrusion_errors : Nat
  category_recall : CatMap Nat
  category_total : CatMap Nat
  category_rate : CatMap ℚ
  serial_position : SerialPositions
  distractor_accuracy : ℚ
deriving DecidableEq, Repr

/-- Embedding of `calculate_recall_scores` in `free_recall_utils.py`. -/
def calculate_recall_scores (session : FreeRecallSession) : RecallScores :=
  let correct_recalls := session.recalled_words.filter (·.is_correct)
  let intrusions := session.recalled_words.filter (·.is_intrusion)
  let category_total : CatMap Nat :=
    session.presented_words.foldl
      (fun m w => m.set w.category (m.get w.category + 1)) ⟨0, 0, 0⟩
  let category_recall : CatMap Nat :=
    correct_recalls.foldl
      (fun m r =>
        match session.presented_words.find? (fun w => w.word == r.recalled_word) with
        | some w => m.set w.category (m.get w.category + 1)
        | none => m)
      ⟨0, 0, 0⟩
  let n_words := session.presented_words.length
  let serial_positions :=
    correct_recalls.foldl (tallySerial n_words) ⟨0, 0, 0⟩
  let rate : Category → ℚ := fun c =>
    if category_total.get c > 0 then
      (category_recall.get c : ℚ) / (category_total.get c : ℚ)
    else 0
  { total_presented := n_words
    total_recalled := session.recalled_words.length
    correct_recalls := correct_recalls.length
    recall_rate :=
      if session.presented_words.isEmpty then 0
      else (correct_recalls.length : ℚ) / (n_words : ℚ)
    intrusion_errors := intrusions.length
    category_recall := category_recall
    category_total := category_total
    category_rate := ⟨rate .positive, rate .negative, rate .neutral⟩
    serial_position := serial_positions
    distractor_accuracy :=
      if session.distractor_total > 0 then
        (session.distractor_correct : ℚ) / (session.distractor_total : ℚ)
      else 0 }

/-- Modelled from the spec: the function `get_fixed_word_list` is imported
from `free_recall_utils` by both `free_recall_encoding.py` and
`free_recall_recall.py`, but its definition is absent from the provided
sources; only its callers exist.  Per the spec, it is backed by a
hard-coded canonical word list of 15 stimuli (the sessions run
`condition="mixed"` with `num_words=15`, hence 5 per category), listed
here in its fixed canonical order with `presentation_order` not yet
assigned. -/
def canonicalWordList : List WordStimulus :=
  (positiveWords.take 5).map (mkStimulus .positive) ++
    (negativeWords.take 5).map (mkStimulus .negative) ++
    (neutralWords.take 5).map (mkStimulus .neutral)

/-- Modelled from the spec: `get_fixed_word_list(randomize)` returns the
canonical word list, shuffled first when `randomize=True`, and in its
exact hard-coded fixed order when `randomize=False`; `presentation_order`
is then assigned 1..N in the resulting order.  The call to the random
shuffle is passed in as an oracle, unused in the deterministic branch. -/
def get_fixed_word_list (randomize : Bool)
    (shuffle : List WordStimulus → List WordStimulus) : List WordStimulus :=
  if randomize then assignOrdersFrom 1 (shuffle canonicalWordList)
  else assignOrdersFrom 1 canonicalWordList

/-- Number of stimuli of category `c` in a word list. -/
def countCat (l : List WordStimulus) (c : Category) : Nat :=
  l.countP (fun w => w.category == c)

/-- The words of category `c` in a word list, in list order. -/
def wordsOfCat (l : List WordStimulus) (c : Category) : List String :=
  (l.filter (fun w => w.category == c)).map (·.word)

/-- Behavioral contract of `random.sample(l, k)` for `k ≤ len(l)`:
the result is the `k`-prefix of some permutation of the population,
hence `k` distinct positions drawn without replacement. -/
def SampleSpec (sample : List StimRecord → Nat → List StimRecord) : Prop :=
  ∀ (l : List StimRecord) (k : Nat), k ≤ l.length →
    ∃ l2, l.Perm l2 ∧ sample l k = l2.take k

/-- Behavioral contract of `random.shuffle`: the result is a
permutation of the input. -/
def ShuffleSpec (shuffle : List WordStimulus → List WordStimulus) : Prop :=
  ∀ l, (shuffle l).Perm l

/-- A deterministic instance of the `random.sample` contract: take the
first `k` elements. -/
def takeSample (l : List StimRecord) (k : Nat) : List StimRecord :=
  l.take k

/-- A deterministic instance of the `random.shuffle` contract: the
identity permutation. -/
def idShuffle (l : List WordStimulus) : List WordStimulus := l

/-- A recall session with nothing presented, nothing recalled and no
distractor problems, exercising every zero-denominator guard. -/
def emptyRecallSession : FreeRecallSession :=
  { session_id := ""
    participant_id := ""
    condition := "mixed"
    processing_type := "semantic"
    num_words := 0
    presented_words := []
    recalled_words := []
    distractor_correct := 0
    distractor_total := 0 }

end FreeRecall

namespace IGT

/-- The invariant maintained by `select_deck` on a `GameSession`: every
recorded `balance_after` extends the previous balance by that trial's
`net_outcome`, the running balance is the last recorded one, and it
equals the initial balance plus the sum of all net outcomes. -/
def SessionInv (s : GameSession) : Prop :=
  balanceChain s.initial_balance s.trials = true ∧
  s.current_balance = endBalance s.initial_balance s.trials ∧
  s.current_balance = s.initial_balance + sumNets s.trials ∧
  s.initial_balance = 2000

/-- Discriminator for the result of `draw_card`: `true` on a successful
draw, `false` when the `ValueError` branch was taken. -/
def okResult : Except String DrawOutcome → Bool
  | .ok _ => true
  | .error _ => false

end IGT

namespace IGT

theorem DeckMap.get_set (m : DeckMap) (d e : Deck) (v : Nat) :
    (m.set e v).get d = if d = e then v else m.get d := by
  cases d <;> cases e <;> simp [DeckMap.get, DeckMap.set]

theorem DeckMap.get_set_self (m : DeckMap) (d : Deck) (v : Nat) :
    (m.set d v).get d = v := by
  cases d <;> rfl

theorem parseDeck_deckSym (d : Deck) : parseDeck (deckSym d) = some d := by
  cases d <;> rfl

theorem drawN_indices (d : Deck) (n : Nat) :
    (drawN d n).indices.get d = n % 40 := by
  induction n with
  | zero => cases d <;> rfl
  | succ n ih =>
    show (((drawN d n).indices).set d _).get d = _
    rw [DeckMap.get_set_self, ih]
    omega

/-- C1.  The claim asserts the 40-card cycle totals 1250, 1250, 250, 250
for decks A, B, C, D.  In the code each block of TEN cards totals 1250
(A, B) or 250 (C, D), so the full 40-card table of deck A sums to 5000,
not 1250: the claim as stated is false already at deck A. -/
theorem C1_counterexample :
    (drawPenalties Deck.A 40).sum = 5000 ∧
    (penalty_schedules Deck.A).sum = 5000 ∧
    ¬ (drawPenalties Deck.A 40).sum = 1250 := by
  refine ⟨by decide, by decide, by decide⟩

/-- C1 (amended).  For every deck, the penalties returned by the first 40
draws sum to the full table total: 5000 for A, 5000 for B, 1000 for C and
1000 for D (the canonical 1250 / 1250 / 250 / 250 are the per-10-card
block totals, four blocks per 40-card cycle). -/
theorem C1_cycle_totals :
    (drawPenalties Deck.A 40).sum = 5000 ∧
    (drawPenalties Deck.B 40).sum = 5000 ∧
    (drawPenalties Deck.C 40).sum = 1000 ∧
    (drawPenalties Deck.D 40).sum = 1000 ∧
    (∀ d, (drawPenalties d 40).sum = (penalty_schedules d).sum) ∧
    (∀ d, ((penalty_schedules d).take 10).sum * 4 = (penalty_schedules d).sum) := by
  refine ⟨by decide, by decide, by decide, by decide,
    by intro d; cases d <;> decide, by intro d; cases d <;> decide⟩

/-- C10.  `DeckManager.reset` zeroes all four per-deck draw counts but
leaves every cursor in `deck_indices` untouched, so the next draw on any
deck returns exactly what it would have returned without the reset —
the penalty at the pre-reset cursor position, not position 0. -/
theorem C10_reset_keeps_cursors (st : DeckState) (d : Deck) :
    (reset st).counts = ⟨0, 0, 0, 0⟩ ∧
    (reset st).indices = st.indices ∧
    (drawCardOk (reset st) d).1 = (drawCardOk st d).1 ∧
    (drawCardOk (reset st) d).1.2.1 =
      (penalty_schedules d).getD (st.indices.get d) 0 ∧
    (drawCardOk (reset st) d).2.indices = (drawCardOk st d).2.indices := by
  refine ⟨rfl, rfl, rfl, rfl, rfl⟩

/-- C2.  For every deck `d` and draw count `k ≥ 1`, the k-th draw on `d`
returns reward `rewards d`, penalty `table[(k-1) mod 40]` and net
`reward - penalty`; every successful draw advances the cursor of the
drawn deck by exactly one position mod 40; and draw 41 on a deck
reproduces draw 1's outcome exactly. -/
theorem C2_kth_draw (d : Deck) (st : DeckState) (k : Nat) (h : 1 ≤ k) :
    (draw_card (drawN d (k - 1)) (deckSym d)).1 =
      Except.ok (rewards d, (penalty_schedules d).getD ((k - 1) % 40) 0,
        (rewards d : Int) - ((penalty_schedules d).getD ((k - 1) % 40) 0 : Int)) ∧
    (draw_card st (deckSym d)).2.indices.get d = (st.indices.get d + 1) % 40 ∧
    (drawN d (k - 1)).counts.get d = k - 1 ∧
    (draw_card (drawN d 40) (deckSym d)).1 =
      (draw_card initDeckState (deckSym d)).1 := by
  have hidx : ∀ n, (drawN d n).indices.get d = n % 40 := drawN_indices d
  have hcnt : ∀ n, (drawN d n).counts.get d = n := by
    intro n
    induction n with
    | zero => cases d <;> rfl
    | succ n ih =>
      show (((drawN d n).counts).set d _).get d = _
      rw [DeckMap.get_set_self, ih]
  refine ⟨?_, ?_, hcnt (k - 1), ?_⟩
  · simp only [draw_card, parseDeck_deckSym, drawCardOk, hidx]
  · simp only [draw_card, parseDeck_deckSym, drawCardOk, DeckMap.get_set_self]
  · cases d <;> rfl

/-- Witness for C2 at deck A and k = 41: the 41st draw reproduces the
first card of the schedule (penalty 0, net +100). -/
theorem C2_kth_draw_witness :
    1 ≤ 41 ∧
    (draw_card (drawN Deck.A (41 - 1)) (deckSym Deck.A)).1 =
      Except.ok (rewards Deck.A, (penalty_schedules Deck.A).getD ((41 - 1) % 40) 0,
        (rewards Deck.A : Int) -
          ((penalty_schedules Deck.A).getD ((41 - 1) % 40) 0 : Int)) :=
  ⟨by decide, (C2_kth_draw Deck.A initDeckState 41 (by decide)).1⟩

/-- C7.  `draw_card` fails (with the `Invalid deck` error) exactly when
the symbol is not one of A, B, C, D; it never returns a default outcome
for an unknown symbol, and on failure the scheduler state — cursors and
counts alike — is exactly the state before the call. -/
theorem C7_invalid_deck (st : DeckState) (s : String) :
    (okResult (draw_card st s).1 = true ↔
      (s = "A" ∨ s = "B" ∨ s = "C" ∨ s = "D")) ∧
    (okResult (draw_card st s).1 = false →
      (draw_card st s).2 = st ∧
      (draw_card st s).1 = Except.error ("Invalid deck: " ++ s)) := by
  simp only [draw_card, parseDeck]
  split_ifs with h1 h2 h3 h4 <;> simp_all [okResult]

/-- Witness for C7 at the unknown symbol E: the call errors and the
scheduler state is returned unchanged. -/
theorem C7_invalid_deck_witness :
    okResult (draw_card initDeckState "E").1 = false ∧
    (draw_card initDeckState "E").2 = initDeckState ∧
    (draw_card initDeckState "E").1 = Except.error ("Invalid deck: " ++ "E") :=
  ⟨by decide,
   ((C7_invalid_deck initDeckState "E").2 (by decide)).1,
   ((C7_invalid_deck initDeckState "E").2 (by decide)).2⟩

theorem endBalance_append (b : Int) (ts : List TrialResult) (t : TrialResult) :
    endBalance b (ts ++ [t]) = t.balance_after := by
  induction ts generalizing b with
  | nil => rfl
  | cons u us ih => simpa [endBalance] using ih u.balance_after

theorem balanceChain_append (b : Int) (ts : List TrialResult) (t : TrialResult) :
    balanceChain b (ts ++ [t]) =
      (balanceChain b ts && (t.balance_after == endBalance b ts + t.net_outcome)) := by
  induction ts generalizing b with
  | nil => simp [balanceChain, endBalance]
  | cons u us ih => simp [balanceChain, endBalance, ih, Bool.and_assoc]

theorem sumNets_append (ts : List TrialResult) (t : TrialResult) :
    sumNets (ts ++ [t]) = sumNets ts + t.net_outcome := by
  simp [sumNets]

theorem select_deck_inv (p : GameSession × DeckState) (d : Deck) :
    SessionInv p.1 → SessionInv (select_deck p d).1 := by
  rintro ⟨h1, h2, h3, h4⟩
  refine ⟨?_, ?_, ?_, h4⟩
  · show balanceChain p.1.initial_balance (p.1.trials ++ [_]) = true
    rw [balanceChain_append, h1, Bool.true_and, beq_iff_eq, ← h2]
  · show p.1.current_balance + _ = endBalance p.1.initial_balance (p.1.trials ++ [_])
    rw [endBalance_append]
  · show p.1.current_balance + _ =
      p.1.initial_balance + sumNets (p.1.trials ++ [_])
    rw [sumNets_append, h3]
    ring

theorem runSession_inv (choices : List Deck) : SessionInv (runSession choices).1 := by
  have general : ∀ (l : List Deck) (acc : GameSession × DeckState),
      SessionInv acc.1 → SessionInv (l.foldl select_deck acc).1 := by
    intro l
    induction l with
    | nil => intro acc h; exact h
    | cons c cs ih => intro acc h; exact ih _ (select_deck_inv acc c h)
  exact general choices (initSession, initDeckState) ⟨rfl, rfl, rfl, rfl⟩

/-- C6.  In every gambling session (any sequence of deck choices run
through `select_deck`), each recorded `balance_after` equals the previous
recorded balance plus that trial's `net_outcome`, starting from the
initial balance 2000, and the final balance minus the initial balance is
the sum of all recorded net outcomes. -/
theorem C6_balance_running_sum (choices : List Deck) :
    balanceChain (runSession choices).1.initial_balance
      (runSession choices).1.trials = true ∧
    (runSession choices).1.initial_balance = 2000 ∧
    (runSession choices).1.current_balance -
        (runSession choices).1.initial_balance =
      sumNets (runSession choices).1.trials := by
  obtain ⟨h1, h2, h3, h4⟩ := runSession_inv choices
  exact ⟨h1, h4, by omega⟩

theorem foldl_deck_counts (ts : List TrialResult) (m : DeckMap) (d : Deck) :
    (ts.foldl (fun m t => m.set t.deck_choice (m.get t.deck_choice + 1)) m).get d =
      m.get d + ts.countP (fun t => t.deck_choice == d) := by
  induction ts generalizing m with
  | nil => simp
  | cons t ts ih =>
    rw [List.foldl_cons, ih, List.countP_cons, DeckMap.get_set]
    by_cases hdt : d = t.deck_choice
    · subst hdt; simp; omega
    · have : (t.deck_choice == d) = false := by
        simp [beq_eq_false_iff_ne]; exact fun he => hdt he.symm
      simp [hdt, this]

/-- C8.  For every trial history, `calculate_igt_score` returns
`net_score = (count C + count D) - (count A + count B)`,
`advantageous_ratio = (count C + count D) / total` when there are trials
and 0 on an empty history, and `profit = final_balance - initial_balance`;
in particular the history 3 A, 2 B, 4 C, 1 D scores `net_score = 0`. -/
theorem C8_igt_score (s : GameSession) :
    ((calculate_igt_score s).net_score =
      ((s.trials.countP (fun t => t.deck_choice == Deck.C) +
        s.trials.countP (fun t => t.deck_choice == Deck.D) : Nat) : Int) -
      ((s.trials.countP (fun t => t.deck_choice == Deck.A) +
        s.trials.countP (fun t => t.deck_choice == Deck.B) : Nat) : Int)) ∧
    (s.trials = [] → (calculate_igt_score s).advantageous_ratio = 0) ∧
    (s.trials ≠ [] → (calculate_igt_score s).advantageous_ratio =
      ((s.trials.countP (fun t => t.deck_choice == Deck.C) +
        s.trials.countP (fun t => t.deck_choice == Deck.D) : Nat) : ℚ) /
      (s.trials.length : ℚ)) ∧
    ((calculate_igt_score s).profit = s.current_balance - s.initial_balance) ∧
    (calculate_igt_score (runSession
      [Deck.A, Deck.A, Deck.A, Deck.B, Deck.B,
       Deck.C, Deck.C, Deck.C, Deck.C, Deck.D]).1).net_score = 0 := by
  refine ⟨?_, ?_, ?_, rfl, by decide⟩
  · simp only [calculate_igt_score, foldl_deck_counts]
    norm_num [DeckMap.get]
  · intro h
    simp [calculate_igt_score, h]
  · intro h
    have hlen : 0 < s.trials.length := List.length_pos.mpr h
    simp only [calculate_igt_score, foldl_deck_counts]
    norm_num [DeckMap.get, hlen]

/-- Witness for C8 at a one-trial history on deck C: the ratio is the
exact quotient of advantageous choices over trials. -/
theorem C8_igt_score_witness :
    (runSession [Deck.C]).1.trials ≠ [] ∧
    (calculate_igt_score (runSession [Deck.C]).1).advantageous_ratio =
      (((runSession [Deck.C]).1.trials.countP (fun t => t.deck_choice == Deck.C) +
        (runSession [Deck.C]).1.trials.countP (fun t => t.deck_choice == Deck.D) : Nat) : ℚ) /
      (((runSession [Deck.C]).1.trials.length : Nat) : ℚ) :=
  ⟨by decide, (C8_igt_score (runSession [Deck.C]).1).2.2.1 (by decide)⟩

end IGT

namespace FreeRecall

/-- C4.  With `range = min 3 (n / 3)`, a correct response whose
`original_position` lies in 1..n classifies as primacy exactly when the
position is at most `range`, as recency exactly when it exceeds
`n - range` strictly, and as middle otherwise; when `n < 3` (so
`range = 0`) every such response classifies as middle. -/
theorem C4_serial_position (n pos : Nat) (h1 : 1 ≤ pos) (h2 : pos ≤ n) :
    (classifySerial n pos = SerialClass.primacy ↔ pos ≤ min 3 (n / 3)) ∧
    (classifySerial n pos = SerialClass.recency ↔ n - min 3 (n / 3) < pos) ∧
    (classifySerial n pos = SerialClass.middle ↔
      (¬ pos ≤ min 3 (n / 3) ∧ ¬ n - min 3 (n / 3) < pos)) ∧
    (n < 3 → classifySerial n pos = SerialClass.middle) := by
  have hrange : 2 * min 3 (n / 3) ≤ n := by omega
  simp only [classifySerial]
  split_ifs with hp hr
  · refine ⟨by simp [hp], ?_, ?_, ?_⟩ <;> simp <;> omega
  · refine ⟨by simp [hp], by simp [hr], ?_, ?_⟩ <;> simp <;> omega
  · refine ⟨by simp [hp], by simp [hr], by simp [hp, hr], fun _ => rfl⟩

/-- Witness for C4 at n = 9, position 7: since `9 - 3 = 6 < 7`, the
response classifies as recency, settling the flagged boundary. -/
theorem C4_serial_position_witness :
    1 ≤ 7 ∧ 7 ≤ 9 ∧ classifySerial 9 7 = SerialClass.recency :=
  ⟨by decide, by decide,
   (C4_serial_position 9 7 (by decide) (by decide)).2.1.mpr (by decide)⟩

/-- C9.  Every ratio computed by the two scorers defaults to exactly 0 on
a zero denominator (empty presented list, empty per-category tally, zero
trials, zero distractor problems) and is the exact quotient otherwise;
in the rational-number embedding no division can raise or produce
NaN/Inf, so the guard is total. -/
theorem C9_zero_denominator_guards (fr : FreeRecallSession)
    (gs : IGT.GameSession) (c : Category) :
    (fr.presented_words = [] → (calculate_recall_scores fr).recall_rate = 0) ∧
    (fr.presented_words ≠ [] → (calculate_recall_scores fr).recall_rate =
      ((fr.recalled_words.filter (·.is_correct)).length : ℚ) /
        (fr.presented_words.length : ℚ)) ∧
    ((calculate_recall_scores fr).category_total.get c = 0 →
      (calculate_recall_scores fr).category_rate.get c = 0) ∧
    (0 < (calculate_recall_scores fr).category_total.get c →
      (calculate_recall_scores fr).category_rate.get c =
        ((calculate_recall_scores fr).category_recall.get c : ℚ) /
          ((calculate_recall_scores fr).category_total.get c : ℚ)) ∧
    (fr.distractor_total = 0 →
      (calculate_recall_scores fr).distractor_accuracy = 0) ∧
    (0 < fr.distractor_total →
      (calculate_recall_scores fr).distractor_accuracy =
        (fr.distractor_correct : ℚ) / (fr.distractor_total : ℚ)) ∧
    (gs.trials = [] → (IGT.calculate_igt_score gs).advantageous_ratio = 0) ∧
    (gs.trials ≠ [] → (IGT.calculate_igt_score gs).advantageous_ratio =
      (((IGT.calculate_igt_score gs).deck_counts.get IGT.Deck.C +
        (IGT.calculate_igt_score gs).deck_counts.get IGT.Deck.D : Nat) : ℚ) /
      (gs.trials.length : ℚ)) := by
  refine ⟨?_, ?_, ?_, ?_, ?_, ?_, ?_, ?_⟩
  · intro h; simp [calculate_recall_scores, h]
  · intro h
    simp [calculate_recall_scores, List.isEmpty_iff, h]
  · intro h
    cases c <;> simp_all [calculate_recall_scores, CatMap.get]
  · intro h
    cases c <;> simp_all [calculate_recall_scores, CatMap.get]
  · intro h; simp [calculate_recall_scores, h]
  · intro h; simp [calculate_recall_scores, Nat.pos_iff_ne_zero.mp h, h]
  · intro h; simp [IGT.calculate_igt_score, h]
  · intro h
    have hlen : 0 < gs.trials.length := List.length_pos.mpr h
    simp [IGT.calculate_igt_score, hlen]

/-- Witness for C9 on an empty recall session and an empty gambling
session: every guarded ratio is 0. -/
theorem C9_zero_denominator_guards_witness :
    (calculate_recall_scores emptyRecallSession).recall_rate = 0 ∧
    (calculate_recall_scores emptyRecallSession).category_rate.get
      Category.positive = 0 ∧
    (calculate_recall_scores emptyRecallSession).distractor_accuracy = 0 ∧
    (IGT.calculate_igt_score IGT.initSession).advantageous_ratio = 0 :=
  ⟨(C9_zero_denominator_guards emptyRecallSession IGT.initSession
      Category.positive).1 rfl,
   (C9_zero_denominator_guards emptyRecallSession IGT.initSession
      Category.positive).2.2.1 (by decide),
   (C9_zero_denominator_guards emptyRecallSession IGT.initSession
      Category.positive).2.2.2.2.1 rfl,
   (C9_zero_denominator_guards emptyRecallSession IGT.initSession
      Category.positive).2.2.2.2.2.2.1 rfl⟩

/-- C3.  With `randomize=False`, building the word list is independent of
the randomness oracle: any two calls return bit-identical `WordStimulus`
sequences — `presentation_order` values included — namely the hard-coded
canonical word list in its exact fixed order with orders 1..15. -/
theorem C3_fixed_order_deterministic
    (s1 s2 : List WordStimulus → List WordStimulus) :
    get_fixed_word_list false s1 = get_fixed_word_list false s2 ∧
    (get_fixed_word_list false s1).map (·.word) =
      canonicalWordList.map (·.word) ∧
    (get_fixed_word_list false s1).map (·.presentation_order) =
      List.range' 1 15 := by
  refine ⟨rfl, rfl, rfl⟩

theorem countCat_assignOrdersFrom (i : Nat) (l : List WordStimulus) (c : Category) :
    countCat (assignOrdersFrom i l) c = countCat l c := by
  induction l generalizing i with
  | nil => rfl
  | cons w ws ih =>
    simp only [assignOrdersFrom, countCat, List.countP_cons] at ih ⊢
    rw [ih]

theorem wordsOfCat_assignOrdersFrom (i : Nat) (l : List WordStimulus) (c : Category) :
    wordsOfCat (assignOrdersFrom i l) c = wordsOfCat l c := by
  induction l generalizing i with
  | nil => rfl
  | cons w ws ih =>
    simp only [assignOrdersFrom, wordsOfCat, List.filter_cons] at ih ⊢
    by_cases h : (w.category == c) = true
    · simp [h, ih]
    · simp at h
      simp [h, ih]

theorem countCat_append (l1 l2 : List WordStimulus) (c : Category) :
    countCat (l1 ++ l2) c = countCat l1 c + countCat l2 c := by
  simp [countCat, List.countP_append]

theorem countCat_map_mkStimulus (l : List StimRecord) (c e : Category) :
    countCat (l.map (mkStimulus c)) e = if c = e then l.length else 0 := by
  induction l with
  | nil => simp [countCat]
  | cons r rs ih =>
    have hcat : (mkStimulus c r).category = c := rfl
    simp only [List.map_cons, countCat, List.countP_cons] at ih ⊢
    rw [ih, hcat]
    by_cases h : c = e
    · subst h; simp
    · simp [h]

theorem wordsOfCat_append (l1 l2 : List WordStimulus) (c : Category) :
    wordsOfCat (l1 ++ l2) c = wordsOfCat l1 c ++ wordsOfCat l2 c := by
  simp [wordsOfCat, List.filter_append]

theorem wordsOfCat_map_mkStimulus_same (l : List StimRecord) (c : Category) :
    wordsOfCat (l.map (mkStimulus c)) c = l.map (·.word) := by
  induction l with
  | nil => rfl
  | cons r rs ih =>
    simp only [List.map_cons, wordsOfCat, List.filter_cons, mkStimulus] at ih ⊢
    simp [ih]

theorem wordsOfCat_map_mkStimulus_ne (l : List StimRecord) (c e : Category)
    (h : c ≠ e) : wordsOfCat (l.map (mkStimulus c)) e = [] := by
  induction l with
  | nil => rfl
  | cons r rs ih =>
    simp only [List.map_cons, wordsOfCat, List.filter_cons, mkStimulus] at ih ⊢
    simp [h, ih]

theorem countCat_perm {l1 l2 : List WordStimulus} (h : l1.Perm l2) (c : Category) :
    countCat l1 c = countCat l2 c :=
  h.countP_eq _

theorem wordsOfCat_perm {l1 l2 : List WordStimulus} (h : l1.Perm l2) (c : Category) :
    (wordsOfCat l1 c).Perm (wordsOfCat l2 c) :=
  (h.filter _).map _

theorem sample_length {sample : List StimRecord → Nat → List StimRecord}
    (hs : SampleSpec sample) (l : List StimRecord) (k : Nat)
    (hk : k ≤ l.length) : (sample l k).length = k := by
  obtain ⟨l2, hperm, heq⟩ := hs l k hk
  rw [heq, List.length_take, ← hperm.length_eq]
  omega

theorem sample_words_nodup {sample : List StimRecord → Nat → List StimRecord}
    (hs : SampleSpec sample) (l : List StimRecord) (k : Nat)
    (hk : k ≤ l.length) (hnd : (l.map (·.word)).Nodup) :
    ((sample l k).map (·.word)).Nodup := by
  obtain ⟨l2, hperm, heq⟩ := hs l k hk
  rw [heq, List.map_take]
  exact (List.take_sublist _ _).nodup ((hperm.map _).nodup hnd)

theorem sample_mem {sample : List StimRecord → Nat → List StimRecord}
    (hs : SampleSpec sample) (l : List StimRecord) (k : Nat)
    (hk : k ≤ l.length) {x : StimRecord} (hx : x ∈ sample l k) : x ∈ l := by
  obtain ⟨l2, hperm, heq⟩ := hs l k hk
  rw [heq] at hx
  exact hperm.mem_iff.mpr (List.take_subset _ _ hx)

theorem length_assignOrdersFrom (i : Nat) (l : List WordStimulus) :
    (assignOrdersFrom i l).length = l.length := by
  induction l generalizing i with
  | nil => rfl
  | cons w ws ih => simp [assignOrdersFrom, ih]

theorem positiveWords_nodup : (positiveWords.map (·.word)).Nodup := by decide

theorem negativeWords_nodup : (negativeWords.map (·.word)).Nodup := by decide

theorem neutralWords_nodup : (neutralWords.map (·.word)).Nodup := by decide

/-- C5.  For condition `"mixed"` with requested `count`, the builder
samples `count / 3` positive, `count / 3` negative and
`count / 3 + count % 3` neutral stimuli (remainder to neutral), each
sample size capped at the category catalog size 20 — returning fewer
words instead of erroring — and sampling is without replacement within
each category: the resulting words of each category are pairwise
distinct members of that category's catalog. -/
theorem C5_mixed_split
    (sample : List StimRecord → Nat → List StimRecord)
    (shuffle : List WordStimulus → List WordStimulus)
    (hs : SampleSpec sample) (hsh : ShuffleSpec shuffle)
    (count : Nat) (ma : Bool) :
    (∀ c, countCat (create_word_list sample shuffle "mixed" count ma) c =
      min (count / 3 + (if c = Category.neutral then count % 3 else 0)) 20) ∧
    (create_word_list sample shuffle "mixed" count ma).length =
      min (count / 3) 20 + min (count / 3) 20 +
        min (count / 3 + count % 3) 20 ∧
    (∀ c, (wordsOfCat (create_word_list sample shuffle "mixed" count ma) c).Nodup) ∧
    (∀ c w, w ∈ wordsOfCat (create_word_list sample shuffle "mixed" count ma) c →
      w ∈ (word_db c).map (·.word)) := by
  have hcw : create_word_list sample shuffle "mixed" count ma =
      assignOrdersFrom 1 (shuffle (
        (sample positiveWords (min (count / 3) positiveWords.length)).map
          (mkStimulus .positive) ++
        (sample negativeWords (min (count / 3) negativeWords.length)).map
          (mkStimulus .negative) ++
        (sample neutralWords
            (min (count / 3 + count % 3) neutralWords.length)).map
          (mkStimulus .neutral))) := rfl
  have hp20 : positiveWords.length = 20 := rfl
  have hn20 : negativeWords.length = 20 := rfl
  have hu20 : neutralWords.length = 20 := rfl
  have hlenP := sample_length hs positiveWords _
    (min_le_right (count / 3) positiveWords.length)
  have hlenN := sample_length hs negativeWords _
    (min_le_right (count / 3) negativeWords.length)
  have hlenU := sample_length hs neutralWords _
    (min_le_right (count / 3 + count % 3) neutralWords.length)
  have hlenP2 : (sample positiveWords (min (count / 3) 20)).length =
      min (count / 3) 20 := by simpa [hp20] using hlenP
  have hlenN2 : (sample negativeWords (min (count / 3) 20)).length =
      min (count / 3) 20 := by simpa [hn20] using hlenN
  have hlenU2 : (sample neutralWords (min (count / 3 + count % 3) 20)).length =
      min (count / 3 + count % 3) 20 := by simpa [hu20] using hlenU
  refine ⟨?_, ?_, ?_, ?_⟩
  · intro c
    rw [hcw, countCat_assignOrdersFrom, countCat_perm (hsh _) c,
      countCat_append, countCat_append,
      countCat_map_mkStimulus, countCat_map_mkStimulus, countCat_map_mkStimulus,
      hlenP, hlenN, hlenU]
    cases c <;> simp [hp20, hn20, hu20]
  · rw [hcw, length_assignOrdersFrom, (hsh _).length_eq]
    simp only [List.length_append, List.length_map, hp20, hn20, hu20,
      hlenP2, hlenN2, hlenU2]
  · intro c
    rw [hcw, wordsOfCat_assignOrdersFrom]
    rw [(wordsOfCat_perm (hsh _) c).nodup_iff]
    rw [wordsOfCat_append, wordsOfCat_append]
    cases c
    · rw [wordsOfCat_map_mkStimulus_same,
        wordsOfCat_map_mkStimulus_ne _ _ _ (by decide),
        wordsOfCat_map_mkStimulus_ne _ _ _ (by decide)]
      simpa using sample_words_nodup hs positiveWords _
        (min_le_right _ _) positiveWords_nodup
    · rw [wordsOfCat_map_mkStimulus_same,
        wordsOfCat_map_mkStimulus_ne _ _ _ (by decide),
        wordsOfCat_map_mkStimulus_ne _ _ _ (by decide)]
      simpa using sample_words_nodup hs negativeWords _
        (min_le_right _ _) negativeWords_nodup
    · rw [wordsOfCat_map_mkStimulus_same,
        wordsOfCat_map_mkStimulus_ne _ _ _ (by decide),
        wordsOfCat_map_mkStimulus_ne _ _ _ (by decide)]
      simpa using sample_words_nodup hs neutralWords _
        (min_le_right _ _) neutralWords_nodup
  · intro c w hw
    rw [hcw, wordsOfCat_assignOrdersFrom] at hw
    replace hw := (wordsOfCat_perm (hsh _) c).mem_iff.mp hw
    rw [wordsOfCat_append, wordsOfCat_append] at hw
    cases c
    · rw [wordsOfCat_map_mkStimulus_same,
        wordsOfCat_map_mkStimulus_ne _ _ _ (by decide),
        wordsOfCat_map_mkStimulus_ne _ _ _ (by decide)] at hw
      simp only [List.append_nil, List.mem_map] at hw
      obtain ⟨r, hr, hrw⟩ := hw
      exact List.mem_map.mpr ⟨r, sample_mem hs positiveWords _
        (min_le_right _ _) hr, hrw⟩
    · rw [wordsOfCat_map_mkStimulus_same,
        wordsOfCat_map_mkStimulus_ne _ _ _ (by decide),
        wordsOfCat_map_mkStimulus_ne _ _ _ (by decide)] at hw
      simp only [List.nil_append, List.append_nil, List.mem_map] at hw
      obtain ⟨r, hr, hrw⟩ := hw
      exact List.mem_map.mpr ⟨r, sample_mem hs negativeWords _
        (min_le_right _ _) hr, hrw⟩
    · rw [wordsOfCat_map_mkStimulus_same,
        wordsOfCat_map_mkStimulus_ne _ _ _ (by decide),
        wordsOfCat_map_mkStimulus_ne _ _ _ (by decide)] at hw
      simp only [List.nil_append, List.mem_map] at hw
      obtain ⟨r, hr, hrw⟩ := hw
      exact List.mem_map.mpr ⟨r, sample_mem hs neutralWords _
        (min_le_right _ _) hr, hrw⟩

/-- Witness for C5 with the take-prefix sampler and identity shuffle:
count 15 yields 5 positive, 5 negative, 5 neutral; count 16 yields 6
neutral (remainder to neutral). -/
theorem C5_mixed_split_witness :
    SampleSpec takeSample ∧ ShuffleSpec idShuffle ∧
    countCat (create_word_list takeSample idShuffle "mixed" 15 true)
      Category.positive = 5 ∧
    countCat (create_word_list takeSample idShuffle "mixed" 15 true)
      Category.negative = 5 ∧
    countCat (create_word_list takeSample idShuffle "mixed" 15 true)
      Category.neutral = 5 ∧
    countCat (create_word_list takeSample idShuffle "mixed" 16 true)
      Category.neutral = 6 := by
  have hs : SampleSpec takeSample :=
    fun l k _ => ⟨l, List.Perm.refl l, rfl⟩
  have hsh : ShuffleSpec idShuffle := fun l => List.Perm.refl l
  refine ⟨hs, hsh, ?_, ?_, ?_, ?_⟩
  · have h := (C5_mixed_split takeSample idShuffle hs hsh 15 true).1
      Category.positive
    rw [h]; decide
  · have h := (C5_mixed_split takeSample idShuffle hs hsh 15 true).1
      Category.negative
    rw [h]; decide
  · have h := (C5_mixed_split takeSample idShuffle hs hsh 15 true).1
      Category.neutral
    rw [h]; decide
  · have h := (C5_mixed_split takeSample idShuffle hs hsh 16 true).1
      Category.neutral
    rw [h]; decide

end FreeRecall
